import Mathlib

/-!
Shallow embedding of the Polaris Music Registry substreams module
(`src/substreams/src/lib.rs`): block walking, event extraction,
anchored-event extraction with content-identity resolution, and the
additive aggregation stores, together with proofs of the specified
properties.

External collaborators are modelled as follows:
* the SHA-256 digest (the `sha2` crate) is embedded as an executable
  Lean function over byte lists (FIPS 180-4);
* `serde_json::from_str` is a parameter `fromStr : String → Option Json`
  over an explicit JSON value type mirroring `serde_json::Value`;
* the generated ABI decoder (`abi::polaris_music`, generated by
  `build.rs` from `abi/polaris.music.json`, neither present under
  `src/`) is a parameter bundle `Decoders`, following the spec's
  `decode(action_bytes, action_name) -> typed_record | DecodeError`
  capability.
-/

namespace Polaris

/-! ## Byte-level utilities and SHA-256 (the `sha2` crate's digest) -/

/-- UTF-8 encoding of a single character, as byte values
(mirrors Rust `str::as_bytes` at the character level). -/
def utf8Char (c : Char) : List Nat :=
  let n := c.toNat
  if n < 128 then [n]
  else if n < 2048 then [192 + n / 64, 128 + n % 64]
  else if n < 65536 then [224 + n / 4096, 128 + (n / 64) % 64, 128 + n % 64]
  else [240 + n / 262144, 128 + (n / 4096) % 64, 128 + (n / 64) % 64, 128 + n % 64]

/-- UTF-8 bytes of a string (Rust `String::as_bytes` / `into_bytes`). -/
def strBytes (s : String) : List Nat :=
  s.data.flatMap utf8Char

/-- Addition on 32-bit words. -/
def add32 (a b : Nat) : Nat := (a + b) % 4294967296

/-- Right rotation of a 32-bit word. -/
def rotr (n x : Nat) : Nat :=
  ((x >>> n) ||| (x <<< (32 - n))) &&& 4294967295

/-- SHA-256 `Ch` function. -/
def shaCh (e f g : Nat) : Nat := (e &&& f) ^^^ ((e ^^^ 4294967295) &&& g)

/-- SHA-256 `Maj` function. -/
def shaMaj (a b c : Nat) : Nat := (a &&& b) ^^^ (a &&& c) ^^^ (b &&& c)

/-- SHA-256 big sigma 0. -/
def bsig0 (x : Nat) : Nat := rotr 2 x ^^^ rotr 13 x ^^^ rotr 22 x

/-- SHA-256 big sigma 1. -/
def bsig1 (x : Nat) : Nat := rotr 6 x ^^^ rotr 11 x ^^^ rotr 25 x

/-- SHA-256 small sigma 0. -/
def ssig0 (x : Nat) : Nat := rotr 7 x ^^^ rotr 18 x ^^^ (x >>> 3)

/-- SHA-256 small sigma 1. -/
def ssig1 (x : Nat) : Nat := rotr 17 x ^^^ rotr 19 x ^^^ (x >>> 10)

/-- SHA-256 round constants (FIPS 180-4, written in decimal). -/
def sha256K : List Nat :=
  [1116352408, 1899447441, 3049323471, 3921009573, 961987163, 1508970993,
   2453635748, 2870763221, 3624381080, 310598401, 607225278, 1426881987,
   1925078388, 2162078206, 2614888103, 3248222580, 3835390401, 4022224774,
   264347078, 604807628, 770255983, 1249150122, 1555081692, 1996064986,
   2554220882, 2821834349, 2952996808, 3210313671, 3336571891, 3584528711,
   113926993, 338241895, 666307205, 773529912, 1294757372, 1396182291,
   1695183700, 1986661051, 2177026350, 2456956037, 2730485921, 2820302411,
   3259730800, 3345764771, 3516065817, 3600352804, 4094571909, 275423344,
   430227734, 506948616, 659060556, 883997877, 958139571, 1322822218,
   1537002063, 1747873779, 1955562222, 2024104815, 2227730452, 2361852424,
   2428436474, 2756734187, 3204031479, 3329325298]

/-- SHA-256 initial hash state (FIPS 180-4, written in decimal). -/
def sha256H0 : List Nat :=
  [1779033703, 3144134277, 1013904242, 2773480762,
   1359893119, 2600822924, 528734635, 1541459225]

/-- Big-endian bytes of a value, given a byte width. -/
def beBytes : Nat → Nat → List Nat
  | 0, _ => []
  | w + 1, v => beBytes w (v >>> 8) ++ [v &&& 255]

/-- SHA-256 message padding. -/
def sha256Pad (msg : List Nat) : List Nat :=
  msg ++ [128] ++ List.replicate ((64 - (msg.length + 9) % 64) % 64) 0
      ++ beBytes 8 (msg.length * 8)

/-- 32-bit big-endian words of a 64-byte block. -/
def toWords : List Nat → List Nat
  | b0 :: b1 :: b2 :: b3 :: rest =>
    (((b0 <<< 8 ||| b1) <<< 8 ||| b2) <<< 8 ||| b3) :: toWords rest
  | _ => []

/-- Extend the 16-word message schedule by `n` further words. -/
def schedExtend : Nat → List Nat → List Nat
  | 0, ws => ws
  | n + 1, ws =>
    let l := ws.length
    let nw := add32 (add32 (ws.getD (l - 16) 0) (ssig0 (ws.getD (l - 15) 0)))
                    (add32 (ws.getD (l - 7) 0) (ssig1 (ws.getD (l - 2) 0)))
    schedExtend n (ws ++ [nw])

/-- One SHA-256 compression round. -/
def shaRound (st : Nat × Nat × Nat × Nat × Nat × Nat × Nat × Nat)
    (wk : Nat × Nat) : Nat × Nat × Nat × Nat × Nat × Nat × Nat × Nat :=
  match st with
  | (a, b, c, d, e, f, g, h) =>
    let t1 := add32 (add32 (add32 h (bsig1 e)) (add32 (shaCh e f g) wk.2)) wk.1
    let t2 := add32 (bsig0 a) (shaMaj a b c)
    (add32 t1 t2, a, b, c, add32 d t1, e, f, g)

/-- Compress one 64-byte block into the running hash state. -/
def sha256Compress (hs : List Nat) (block : List Nat) : List Nat :=
  let ws := schedExtend 48 (toWords block)
  let h0 := hs.getD 0 0
  let h1 := hs.getD 1 0
  let h2 := hs.getD 2 0
  let h3 := hs.getD 3 0
  let h4 := hs.getD 4 0
  let h5 := hs.getD 5 0
  let h6 := hs.getD 6 0
  let h7 := hs.getD 7 0
  match (ws.zip sha256K).foldl shaRound (h0, h1, h2, h3, h4, h5, h6, h7) with
  | (a, b, c, d, e, f, g, h) =>
    [add32 h0 a, add32 h1 b, add32 h2 c, add32 h3 d,
     add32 h4 e, add32 h5 f, add32 h6 g, add32 h7 h]

/-- Split a byte list into 64-byte chunks (fuel-driven so that the
kernel can evaluate it; `fuel = l.length` always suffices). -/
def chunks64Go : Nat → List Nat → List (List Nat)
  | 0, _ => []
  | fuel + 1, l => if l = [] then [] else l.take 64 :: chunks64Go fuel (l.drop 64)

/-- Split a byte list into 64-byte chunks. -/
def chunks64 (l : List Nat) : List (List Nat) :=
  chunks64Go l.length l

/-- SHA-256 digest of a byte list, as 32 bytes. -/
def sha256Bytes (msg : List Nat) : List Nat :=
  ((chunks64 (sha256Pad msg)).foldl sha256Compress sha256H0).flatMap (beBytes 4)

/-- A lowercase hexadecimal digit. -/
def hexDigit (n : Nat) : Char :=
  if n < 10 then Char.ofNat (48 + n) else Char.ofNat (87 + n)

/-- Lowercase hexadecimal rendering of one byte. -/
def hexByte (b : Nat) : String :=
  String.mk [hexDigit (b / 16), hexDigit (b % 16)]

/-- Lowercase hexadecimal rendering of a byte list (the `hex` crate's
`hex::encode`). -/
def hexEncode (bs : List Nat) : String :=
  String.join (bs.map hexByte)

/-- `hex::encode(Sha256::digest(msg))`: the hex-encoded SHA-256 digest
used throughout `lib.rs` for `event_hash` and hash fallbacks. -/
def sha256Hex (msg : List Nat) : String :=
  hexEncode (sha256Bytes msg)

/-! ## JSON values (`serde_json::Value`) and serialization -/

/-- JSON value type mirroring `serde_json::Value` (objects keep their
entry list; `serde_json`'s default map is a `BTreeMap`, so reconstructed
objects are rendered with keys in sorted order below). -/
inductive Json where
  | null : Json
  | bool (b : Bool) : Json
  | num (n : Int) : Json
  | str (s : String) : Json
  | arr (xs : List Json) : Json
  | obj (fields : List (String × Json)) : Json

/-- `Value::get(key)`: member lookup on an object, `None` otherwise. -/
def Json.get : Json → String → Option Json
  | .obj fields, key => (fields.find? (fun kv => kv.1 = key)).map (·.2)
  | _, _ => none

/-- `Value::as_str()`: the string when the value is a JSON string. -/
def Json.asStr : Json → Option String
  | .str s => some s
  | _ => none

/-- JSON string escaping as performed by `serde_json` serialization. -/
def escChar (c : Char) : String :=
  if c = '\"' then "\\\""
  else if c = '\\' then "\\\\"
  else if c = '\n' then "\\n"
  else if c = '\r' then "\\r"
  else if c = '\t' then "\\t"
  else if c.toNat = 8 then "\\b"
  else if c.toNat = 12 then "\\f"
  else if c.toNat < 32 then "\\u00" ++ hexByte c.toNat
  else String.singleton c

/-- Escape a whole string for JSON rendering. -/
def escStr (s : String) : String :=
  String.join (s.data.map escChar)

mutual

/-- `Value::to_string()`: compact JSON rendering as done by `serde_json`. -/
def renderJson : Json → String
  | .null => "null"
  | .bool b => if b then "true" else "false"
  | .num n => toString n
  | .str s => "\"" ++ escStr s ++ "\""
  | .arr xs => "[" ++ renderJsonList xs ++ "]"
  | .obj fields => "\x7b" ++ renderJsonFields fields ++ "\x7d"

/-- Comma-separated rendering of array elements. -/
def renderJsonList : List Json → String
  | [] => ""
  | [x] => renderJson x
  | x :: y :: rest => renderJson x ++ "," ++ renderJsonList (y :: rest)

/-- Comma-separated rendering of object members. -/
def renderJsonFields : List (String × Json) → String
  | [] => ""
  | [kv] => "\"" ++ escStr kv.1 ++ "\":" ++ renderJson kv.2
  | kv :: kv2 :: rest =>
      "\"" ++ escStr kv.1 ++ "\":" ++ renderJson kv.2 ++ ","
        ++ renderJsonFields (kv2 :: rest)

end

/-! ## Block data model (`substreams_antelope::pb`) -/

/-- Block-header timestamp (protobuf `Timestamp`, seconds field). -/
structure Timestamp where
  seconds : Int
  deriving DecidableEq

/-- Block header; only the timestamp is consulted by `lib.rs`. -/
structure BlockHeader where
  timestamp : Option Timestamp
  deriving DecidableEq

/-- An Antelope action: invoked name, pre-decoded JSON payload
(empty string when absent) and raw binary payload. -/
structure Action where
  name : String
  json_data : String
  raw_data : List Nat
  deriving DecidableEq

/-- An action trace: receiving account, execution ordinal, and the
action itself (optional in the protobuf). -/
structure ActionTrace where
  receiver : String
  execution_index : Nat
  action : Option Action
  deriving DecidableEq

/-- A transaction trace: identity, execution receipt (present only when
the transaction executed) and its ordered action traces. -/
structure TransactionTrace where
  id : String
  receipt : Option Unit
  action_traces : List ActionTrace
  deriving DecidableEq

/-- A block: identity, number, header and ordered transaction traces. -/
structure Block where
  id : String
  number : Nat
  header : Option BlockHeader
  transactions : List TransactionTrace
  deriving DecidableEq

/-- The `(action_trace, transaction)` pairs yielded by the external
`substreams_antelope` iterator `block.action_traces()`: transactions in
block order, filtered to executed ones (those with a receipt), then
their action traces in trace order (spec section 4.1; the `lib.rs`
comment notes the iterator "already filters for executed transactions"). -/
def actionTracePairs (b : Block) : List (ActionTrace × TransactionTrace) :=
  (b.transactions.filter (fun t => t.receipt.isSome)).flatMap
    (fun t => t.action_traces.map (fun tr => (tr, t)))

/-- The `i64 → u64` cast used on the timestamp seconds (`t.seconds as u64`). -/
def i64AsU64 (i : Int) : Nat :=
  (i % (18446744073709551616 : Int)).toNat

/-- The `u64 → i64` cast used on the block number (`block_num as i64`). -/
def u64AsI64 (n : Nat) : Int :=
  if n < 9223372036854775808 then (n : Int) else (n : Int) - 18446744073709551616

/-- The block timestamp as computed in both map modules:
`block.header.as_ref().and_then(|h| h.timestamp.as_ref()).map(|t| t.seconds as u64).unwrap_or(0)`. -/
def blockTimestamp (b : Block) : Nat :=
  (((b.header.bind (fun h => h.timestamp)).map (fun t => i64AsU64 t.seconds)).getD 0)

/-- The configured contract account:
`if params.is_empty() \x7b "polaris" \x7d else \x7b &params \x7d`. -/
def contractOf (params : String) : String :=
  if params = "" then "polaris" else params

/-! ## Typed action records and the ABI decode capability -/

/-- Decoded `put` action (generated ABI binding; fields as used by
`lib.rs`: author, type_, hash, event_cid, parent, ts, tags). -/
structure PutAction where
  author : String
  type_ : Nat
  hash : String
  event_cid : String
  parent : String
  ts : Nat
  tags : List String
  deriving DecidableEq

/-- Decoded `attest` action. -/
structure AttestAction where
  attestor : String
  tx_hash : String
  confirmed_type : Nat
  deriving DecidableEq

/-- Decoded `vote` action. -/
structure VoteAction where
  voter : String
  tx_hash : String
  val : Int
  deriving DecidableEq

/-- Decoded `finalize` action (only `tx_hash` is consumed). -/
structure FinalizeAction where
  tx_hash : String
  deriving DecidableEq

/-- Decoded `stake` action. -/
structure StakeAction where
  account : String
  node_id : Nat
  quantity : String
  deriving DecidableEq

/-- Decoded `unstake` action. -/
structure UnstakeAction where
  account : String
  node_id : Nat
  quantity : String
  deriving DecidableEq

/-- Decoded `like` action. -/
structure LikeAction where
  account : String
  node_id : Nat
  node_path : String
  deriving DecidableEq

/-- Decoded `unlike` action. -/
structure UnlikeAction where
  account : String
  node_id : Nat
  deriving DecidableEq

/-- One `(account, respect)` pair of the `updrespect` action. -/
structure RespectPair where
  key : String
  value : Int
  deriving DecidableEq

/-- Decoded `updrespect` action. -/
structure UpdrespectAction where
  respect_data : List RespectPair
  election_round : Nat
  deriving DecidableEq

/-- Modelled from the spec: the generated ABI decode capability
(`abi::polaris_music::actions`, produced by `build.rs` from
`abi/polaris.music.json`, neither of which is under `src/`). Per spec
sections 1 and 4.2 it is the external
`decode(action_bytes, action_name) -> typed_record | DecodeError`
capability: one decoder per known action name, consuming the action's
payload bytes and either returning the typed record or failing
distinguishably. -/
structure Decoders where
  put : List Nat → Except String PutAction
  attest : List Nat → Except String AttestAction
  vote : List Nat → Except String VoteAction
  finalize : List Nat → Except String FinalizeAction
  stake : List Nat → Except String StakeAction
  unstake : List Nat → Except String UnstakeAction
  like : List Nat → Except String LikeAction
  unlike : List Nat → Except String UnlikeAction
  updrespect : List Nat → Except String UpdrespectAction

/-! ## Output event model (`pb::polaris::v1`) -/

/-- `PutEvent` payload. -/
structure PutEvent where
  author : String
  type_ : Nat
  hash : String
  parent : String
  ts : Nat
  tags : List String
  expires_at : Nat
  deriving DecidableEq

/-- `AttestEvent` payload. -/
structure AttestEvent where
  attestor : String
  tx_hash : String
  confirmed_type : Nat
  deriving DecidableEq

/-- `VoteEvent` payload. -/
structure VoteEvent where
  voter : String
  tx_hash : String
  val : Int
  weight : Int
  deriving DecidableEq

/-- `FinalizeEvent` payload. -/
structure FinalizeEvent where
  tx_hash : String
  accepted : Bool
  approval_percent : Nat
  reward_amount : Nat
  deriving DecidableEq

/-- `StakeEvent` payload. -/
structure StakeEvent where
  account : String
  node_id : Nat
  quantity : String
  deriving DecidableEq

/-- `UnstakeEvent` payload. -/
structure UnstakeEvent where
  account : String
  node_id : Nat
  quantity : String
  deriving DecidableEq

/-- `LikeEvent` payload. -/
structure LikeEvent where
  account : String
  node_id : Nat
  path : String
  deriving DecidableEq

/-- `UnlikeEvent` payload. -/
structure UnlikeEvent where
  account : String
  node_id : Nat
  deriving DecidableEq

/-- One per-account respect update. -/
structure RespectUpdate where
  account : String
  respect : Int
  deriving DecidableEq

/-- `UpdateRespectEvent` payload. -/
structure UpdateRespectEvent where
  updates : List RespectUpdate
  election_round : Nat
  deriving DecidableEq

/-- The protobuf oneof `pb::polaris::v1::event_data::Event`. -/
inductive EventOneof where
  | put (e : PutEvent)
  | attest (e : AttestEvent)
  | vote (e : VoteEvent)
  | finalize (e : FinalizeEvent)
  | stake (e : StakeEvent)
  | unstake (e : UnstakeEvent)
  | like (e : LikeEvent)
  | unlike (e : UnlikeEvent)
  | updrespect (e : UpdateRespectEvent)
  deriving DecidableEq

/-- `EventData`: the optional oneof wrapper. -/
structure EventData where
  event : Option EventOneof
  deriving DecidableEq

/-- A normalized `Event`. -/
structure Event where
  tx_hash : String
  block_num : Nat
  timestamp : Nat
  event_type : String
  data : Option EventData
  deriving DecidableEq

/-- The `Events` output message. -/
structure Events where
  events : List Event
  deriving DecidableEq

/-- An `AnchoredEvent` with full blockchain provenance. -/
structure AnchoredEvent where
  content_hash : String
  event_hash : String
  payload : List Nat
  block_num : Nat
  block_id : String
  trx_id : String
  action_ordinal : Nat
  timestamp : Nat
  source : String
  contract_account : String
  action_name : String
  deriving DecidableEq

/-- The `AnchoredEvents` output message. -/
structure AnchoredEvents where
  events : List AnchoredEvent
  deriving DecidableEq

/-! ## Event extraction functions (`lib.rs` lines 311-558) -/

/-- `extract_put_event`: decode the `put` action and build a PUT event. -/
def extract_put_event (d : Decoders) (tx_hash : String) (block_num timestamp : Nat)
    (action : Action) : Option Event :=
  match d.put action.raw_data with
  | .error _ => none
  | .ok put =>
    some { tx_hash := tx_hash, block_num := block_num, timestamp := timestamp,
           event_type := "PUT",
           data := some { event := some (.put
             { author := put.author, type_ := put.type_, hash := put.hash,
               parent := put.parent, ts := put.ts, tags := put.tags,
               expires_at := 0 }) } }

/-- `extract_attest_event`. -/
def extract_attest_event (d : Decoders) (tx_hash : String) (block_num timestamp : Nat)
    (action : Action) : Option Event :=
  match d.attest action.raw_data with
  | .error _ => none
  | .ok attest =>
    some { tx_hash := tx_hash, block_num := block_num, timestamp := timestamp,
           event_type := "ATTEST",
           data := some { event := some (.attest
             { attestor := attest.attestor, tx_hash := attest.tx_hash,
               confirmed_type := attest.confirmed_type }) } }

/-- `extract_vote_event` (weight is not in the action data; populated 0). -/
def extract_vote_event (d : Decoders) (tx_hash : String) (block_num timestamp : Nat)
    (action : Action) : Option Event :=
  match d.vote action.raw_data with
  | .error _ => none
  | .ok vote =>
    some { tx_hash := tx_hash, block_num := block_num, timestamp := timestamp,
           event_type := "VOTE",
           data := some { event := some (.vote
             { voter := vote.voter, tx_hash := vote.tx_hash, val := vote.val,
               weight := 0 }) } }

/-- `extract_finalize_event` (outcome fields populated with defaults). -/
def extract_finalize_event (d : Decoders) (tx_hash : String) (block_num timestamp : Nat)
    (action : Action) : Option Event :=
  match d.finalize action.raw_data with
  | .error _ => none
  | .ok fin =>
    some { tx_hash := tx_hash, block_num := block_num, timestamp := timestamp,
           event_type := "FINALIZE",
           data := some { event := some (.finalize
             { tx_hash := fin.tx_hash, accepted := false,
               approval_percent := 0, reward_amount := 0 }) } }

/-- `extract_stake_event`. -/
def extract_stake_event (d : Decoders) (tx_hash : String) (block_num timestamp : Nat)
    (action : Action) : Option Event :=
  match d.stake action.raw_data with
  | .error _ => none
  | .ok stake =>
    some { tx_hash := tx_hash, block_num := block_num, timestamp := timestamp,
           event_type := "STAKE",
           data := some { event := some (.stake
             { account := stake.account, node_id := stake.node_id,
               quantity := stake.quantity }) } }

/-- `extract_unstake_event`. -/
def extract_unstake_event (d : Decoders) (tx_hash : String) (block_num timestamp : Nat)
    (action : Action) : Option Event :=
  match d.unstake action.raw_data with
  | .error _ => none
  | .ok unstake =>
    some { tx_hash := tx_hash, block_num := block_num, timestamp := timestamp,
           event_type := "UNSTAKE",
           data := some { event := some (.unstake
             { account := unstake.account, node_id := unstake.node_id,
               quantity := unstake.quantity }) } }

/-- `extract_like_event`. -/
def extract_like_event (d : Decoders) (tx_hash : String) (block_num timestamp : Nat)
    (action : Action) : Option Event :=
  match d.like action.raw_data with
  | .error _ => none
  | .ok like =>
    some { tx_hash := tx_hash, block_num := block_num, timestamp := timestamp,
           event_type := "LIKE",
           data := some { event := some (.like
             { account := like.account, node_id := like.node_id,
               path := like.node_path }) } }

/-- `extract_unlike_event`. -/
def extract_unlike_event (d : Decoders) (tx_hash : String) (block_num timestamp : Nat)
    (action : Action) : Option Event :=
  match d.unlike action.raw_data with
  | .error _ => none
  | .ok unlike =>
    some { tx_hash := tx_hash, block_num := block_num, timestamp := timestamp,
           event_type := "UNLIKE",
           data := some { event := some (.unlike
             { account := unlike.account, node_id := unlike.node_id }) } }

/-- `extract_update_respect_event`: flatten the respect pairs in order. -/
def extract_update_respect_event (d : Decoders) (tx_hash : String)
    (block_num timestamp : Nat) (action : Action) : Option Event :=
  match d.updrespect action.raw_data with
  | .error _ => none
  | .ok upd =>
    some { tx_hash := tx_hash, block_num := block_num, timestamp := timestamp,
           event_type := "UPDATE_RESPECT",
           data := some { event := some (.updrespect
             { updates := upd.respect_data.map
                 (fun pair => { account := pair.key, respect := pair.value }),
               election_round := upd.election_round }) } }

/-! ## `map_events` (`lib.rs` lines 23-73) -/

/-- The per-pair closure body of `map_events`: receiver filter, action
presence, block context, then dispatch on the action name. -/
def processEvent (d : Decoders) (contract : String) (b : Block)
    (pr : ActionTrace × TransactionTrace) : Option Event :=
  if pr.1.receiver ≠ contract then none
  else
    match pr.1.action with
    | none => none
    | some action =>
      let block_num := b.number
      let timestamp := blockTimestamp b
      match action.name with
      | "put" => extract_put_event d pr.2.id block_num timestamp action
      | "attest" => extract_attest_event d pr.2.id block_num timestamp action
      | "vote" => extract_vote_event d pr.2.id block_num timestamp action
      | "finalize" => extract_finalize_event d pr.2.id block_num timestamp action
      | "stake" => extract_stake_event d pr.2.id block_num timestamp action
      | "unstake" => extract_unstake_event d pr.2.id block_num timestamp action
      | "like" => extract_like_event d pr.2.id block_num timestamp action
      | "unlike" => extract_unlike_event d pr.2.id block_num timestamp action
      | "updrespect" => extract_update_respect_event d pr.2.id block_num timestamp action
      | _ => none

/-- `map_events`: filter-map the execution-ordered trace pairs. -/
def map_events (d : Decoders) (params : String) (b : Block) : Events :=
  { events := (actionTracePairs b).filterMap (processEvent d (contractOf params) b) }

/-! ## `map_anchored_events` (`lib.rs` lines 84-229) -/

/-- The payload/content-hash resolution of `map_anchored_events`
(`lib.rs` lines 121-197) for an action that passed the name filter:
either the JSON document to carry plus the resolved `content_hash`, or
nothing; paired with the diagnostics logged along the way (log arguments
are elided; only the static message text is kept).
Path 1 is taken when `json_data` is non-empty: for `put` the `hash`
field is extracted from the parsed JSON, falling back to the SHA-256 of
the JSON bytes; for other actions the SHA-256 of the JSON bytes is used.
Path 2 (empty `json_data`) skips non-`put` actions and otherwise decodes
the `put` record from the raw bytes via the ABI capability, using its
`hash` field verbatim and reconstructing the canonical JSON payload
(keys in `serde_json`'s sorted `BTreeMap` order). -/
def anchoredPayload (fromStr : String → Option Json) (d : Decoders)
    (action : Action) : Option (String × String) × List String :=
  if action.json_data ≠ "" then
    -- Path 1: json_data available (preferred path from Firehose)
    let json_str := action.json_data
    if action.name = "put" then
      match fromStr json_str with
      | some val =>
        match (val.get "hash").bind Json.asStr with
        | some s => (some (json_str, s), [])
        | none => (some (json_str, sha256Hex (strBytes json_str)), [])
      | none =>
        (some (json_str, sha256Hex (strBytes json_str)),
         ["Failed to parse put action JSON for content_hash"])
    else
      (some (json_str, sha256Hex (strBytes json_str)), [])
  else
    -- Path 2: json_data missing - use raw_data with embedded ABI
    if action.name ≠ "put" then
      (none, ["Skipping non-put action without json_data"])
    else
      match d.put action.raw_data with
      | .error _ => (none, ["Failed to decode put action"])
      | .ok put =>
        let json_str := renderJson (.obj
          [("author", .str put.author), ("event_cid", .str put.event_cid),
           ("hash", .str put.hash), ("parent", .str put.parent),
           ("tags", .arr (put.tags.map .str)), ("ts", .num put.ts),
           ("type", .num put.type_)])
        (some (json_str, put.hash), ["Decoded put from raw bytes"])

/-- The per-pair closure body of `map_anchored_events`, also returning
the diagnostic messages logged for this action. Mirrors `lib.rs` lines
106-217: receiver filter, action presence, name filter, then payload
resolution via `anchoredPayload` and emission of the `AnchoredEvent`
with full provenance. -/
def processAnchored (fromStr : String → Option Json) (d : Decoders)
    (contract : String) (blockId : String) (blockNum blockTs : Nat)
    (pr : ActionTrace × TransactionTrace) :
    Option AnchoredEvent × List String :=
  if pr.1.receiver ≠ contract then (none, [])
  else
    match pr.1.action with
    | none => (none, [])
    | some action =>
      if action.name ≠ "put" ∧ action.name ≠ "vote" ∧ action.name ≠ "finalize" then
        (none, [])
      else
        match anchoredPayload fromStr d action with
        | (none, logs) => (none, logs)
        | (some (json_str, content_hash), logs) =>
          (some { content_hash := content_hash,
                  event_hash := sha256Hex (strBytes json_str),
                  payload := strBytes json_str,
                  block_num := blockNum, block_id := blockId, trx_id := pr.2.id,
                  action_ordinal := pr.1.execution_index, timestamp := blockTs,
                  source := "substreams-eos", contract_account := contract,
                  action_name := action.name }, logs)

/-- `map_anchored_events`: filter-map the execution-ordered trace pairs,
keeping the emitted events (the log side channel is dropped here). -/
def map_anchored_events (fromStr : String → Option Json) (d : Decoders)
    (params : String) (b : Block) : AnchoredEvents :=
  let contract := contractOf params
  { events := (actionTracePairs b).filterMap
      (fun pr => (processAnchored fromStr d contract b.id b.number
                    (blockTimestamp b) pr).1) }

/-! ## Aggregation stores (`lib.rs` lines 235-291) -/

/-- `StoreAddInt64::add`: strictly additive keyed update. -/
def storeAdd (st : String → Int) (k : String) (v : Int) : String → Int :=
  fun k' => if k' = k then st k' + v else st k'

/-- The empty store. -/
def zeroStore : String → Int := fun _ => 0

/-- One iteration of the `store_stats` loop body. -/
def storeStatsStep (st : String → Int) (e : Event) : String → Int :=
  let st := storeAdd st "total_events" 1
  match e.data with
  | some { event := some data } =>
    match data with
    | .put _ => storeAdd st "total_puts" 1
    | .vote _ => storeAdd st "total_votes" 1
    | .stake _ => storeAdd st "total_stakes" 1
    | .like _ => storeAdd st "total_likes" 1
    | _ => st
  | _ => st

/-- `store_stats`: aggregate global statistics from events. -/
def store_stats (events : List Event) (st : String → Int) : String → Int :=
  events.foldl storeStatsStep st

/-- One iteration of the `store_account_activity` loop body. -/
def storeActivityStep (st : String → Int) (e : Event) : String → Int :=
  match e.data with
  | some { event := some data } =>
    let account? : Option String :=
      match data with
      | .put ev => some ev.author
      | .vote ev => some ev.voter
      | .stake ev => some ev.account
      | .like ev => some ev.account
      | _ => none
    match account? with
    | some account =>
      storeAdd (storeAdd st ("account:" ++ account ++ ":events") 1)
        ("account:" ++ account ++ ":last_block") (u64AsI64 e.block_num)
    | none => st
  | _ => st

/-- `store_account_activity`: per-account activity counters. -/
def store_account_activity (events : List Event) (st : String → Int) : String → Int :=
  events.foldl storeActivityStep st

/-! ## Store lemmas -/

theorem storeAdd_apply (st : String → Int) (k : String) (v : Int) (k' : String) :
    storeAdd st k v k' = st k' + (if k' = k then v else 0) := by
  unfold storeAdd
  by_cases h : k' = k <;> simp [h]

theorem storeStatsStep_shift (st : String → Int) (e : Event) (k : String) :
    storeStatsStep st e k = st k + storeStatsStep zeroStore e k := by
  unfold storeStatsStep
  rcases e with ⟨tx, bn, ts, et, data⟩
  rcases data with _ | ⟨ev⟩
  · simp [storeAdd_apply, zeroStore, add_assoc]
  rcases ev with _ | d
  · simp [storeAdd_apply, zeroStore, add_assoc]
  cases d <;> simp [storeAdd_apply, zeroStore, add_assoc]

theorem storeActivityStep_shift (st : String → Int) (e : Event) (k : String) :
    storeActivityStep st e k = st k + storeActivityStep zeroStore e k := by
  unfold storeActivityStep
  rcases e with ⟨tx, bn, ts, et, data⟩
  rcases data with _ | ⟨ev⟩
  · simp [zeroStore]
  rcases ev with _ | d
  · simp [zeroStore]
  cases d <;> simp [storeAdd_apply, zeroStore, add_assoc]

theorem store_stats_shift (l : List Event) (st : String → Int) (k : String) :
    store_stats l st k = st k + store_stats l zeroStore k := by
  induction l generalizing st with
  | nil => simp [store_stats, zeroStore]
  | cons e l ih =>
    show store_stats l (storeStatsStep st e) k
        = st k + store_stats l (storeStatsStep zeroStore e) k
    rw [ih (storeStatsStep st e), ih (storeStatsStep zeroStore e),
        storeStatsStep_shift]
    ring

theorem store_account_activity_shift (l : List Event) (st : String → Int) (k : String) :
    store_account_activity l st k = st k + store_account_activity l zeroStore k := by
  induction l generalizing st with
  | nil => simp [store_account_activity, zeroStore]
  | cons e l ih =>
    show store_account_activity l (storeActivityStep st e) k
        = st k + store_account_activity l (storeActivityStep zeroStore e) k
    rw [ih (storeActivityStep st e), ih (storeActivityStep zeroStore e),
        storeActivityStep_shift]
    ring

/-- C1: for every sequence of events split into two contiguous
sub-sequences, running the aggregation (`store_stats` together with
`store_account_activity`) independently on each sub-sequence and summing
the resulting per-key deltas pointwise yields exactly the same per-key
delta as running the aggregation on the whole sequence in one pass, for
every counter key; moreover every store update is a pure addition on top
of the incoming state (no read-before-write, no conditional overwrite):
the result on any initial store is the initial value plus the delta. -/
theorem store_additivity :
    ∀ (l₁ l₂ : List Event) (k : String),
      (store_stats (l₁ ++ l₂) zeroStore k
        = store_stats l₁ zeroStore k + store_stats l₂ zeroStore k)
      ∧ (store_account_activity (l₁ ++ l₂) zeroStore k
        = store_account_activity l₁ zeroStore k
            + store_account_activity l₂ zeroStore k)
      ∧ (∀ st : String → Int,
          store_stats (l₁ ++ l₂) st k = st k + store_stats (l₁ ++ l₂) zeroStore k
          ∧ store_account_activity (l₁ ++ l₂) st k
              = st k + store_account_activity (l₁ ++ l₂) zeroStore k) := by
  intro l₁ l₂ k
  have hs : store_stats (l₁ ++ l₂) zeroStore = store_stats l₂ (store_stats l₁ zeroStore) := by
    simp [store_stats, List.foldl_append]
  have ha : store_account_activity (l₁ ++ l₂) zeroStore
      = store_account_activity l₂ (store_account_activity l₁ zeroStore) := by
    simp [store_account_activity, List.foldl_append]
  refine ⟨?_, ?_, fun st => ⟨store_stats_shift _ st k, store_account_activity_shift _ st k⟩⟩
  · rw [hs, store_stats_shift l₂ (store_stats l₁ zeroStore) k]
  · rw [ha, store_account_activity_shift l₂ (store_account_activity l₁ zeroStore) k]

/-! ## Per-event store effects (C7) -/

/-- The keys `store_stats` touches for one event. -/
def statsKeys (e : Event) : List String :=
  "total_events" ::
    (match e.data with
     | some { event := some d } =>
       match d with
       | .put _ => ["total_puts"]
       | .vote _ => ["total_votes"]
       | .stake _ => ["total_stakes"]
       | .like _ => ["total_likes"]
       | _ => []
     | _ => [])

/-- The keys `store_account_activity` touches for one event. -/
def activityKeys (e : Event) : List String :=
  match e.data with
  | some { event := some d } =>
    match d with
    | .put ev => ["account:" ++ ev.author ++ ":events",
                  "account:" ++ ev.author ++ ":last_block"]
    | .vote ev => ["account:" ++ ev.voter ++ ":events",
                   "account:" ++ ev.voter ++ ":last_block"]
    | .stake ev => ["account:" ++ ev.account ++ ":events",
                    "account:" ++ ev.account ++ ":last_block"]
    | .like ev => ["account:" ++ ev.account ++ ":events",
                   "account:" ++ ev.account ++ ":last_block"]
    | _ => []
  | _ => []

theorem acct_keys_ne (a : String) :
    ("account:" ++ a ++ ":events") ≠ ("account:" ++ a ++ ":last_block") := by
  intro h
  have h2 := congrArg String.data h
  simp only [String.data_append] at h2
  have h3 := List.append_cancel_left h2
  exact absurd h3 (by decide)

/-- C7: for every event consumed by the aggregation stores:
`total_events` is incremented by 1; if the event's payload variant is
PUT, VOTE, STAKE or LIKE the matching `total_*` counter is additionally
incremented by 1; for events carrying an identifiable account (author
for PUT, voter for VOTE, account for STAKE/LIKE) the key
`account:<id>:events` is incremented by 1 and the event's block number
(cast `u64 → i64` as in the source) is added to
`account:<id>:last_block`; no other keys are touched by either store. -/
theorem store_step_effects (st : String → Int) (e : Event) :
    (storeStatsStep st e "total_events" = st "total_events" + 1)
    ∧ (∀ pe, e.data = some { event := some (.put pe) } →
        storeStatsStep st e "total_puts" = st "total_puts" + 1)
    ∧ (∀ ve, e.data = some { event := some (.vote ve) } →
        storeStatsStep st e "total_votes" = st "total_votes" + 1)
    ∧ (∀ se, e.data = some { event := some (.stake se) } →
        storeStatsStep st e "total_stakes" = st "total_stakes" + 1)
    ∧ (∀ le, e.data = some { event := some (.like le) } →
        storeStatsStep st e "total_likes" = st "total_likes" + 1)
    ∧ (∀ pe, e.data = some { event := some (.put pe) } →
        storeActivityStep st e ("account:" ++ pe.author ++ ":events")
          = st ("account:" ++ pe.author ++ ":events") + 1
        ∧ storeActivityStep st e ("account:" ++ pe.author ++ ":last_block")
          = st ("account:" ++ pe.author ++ ":last_block") + u64AsI64 e.block_num)
    ∧ (∀ ve, e.data = some { event := some (.vote ve) } →
        storeActivityStep st e ("account:" ++ ve.voter ++ ":events")
          = st ("account:" ++ ve.voter ++ ":events") + 1
        ∧ storeActivityStep st e ("account:" ++ ve.voter ++ ":last_block")
          = st ("account:" ++ ve.voter ++ ":last_block") + u64AsI64 e.block_num)
    ∧ (∀ se, e.data = some { event := some (.stake se) } →
        storeActivityStep st e ("account:" ++ se.account ++ ":events")
          = st ("account:" ++ se.account ++ ":events") + 1
        ∧ storeActivityStep st e ("account:" ++ se.account ++ ":last_block")
          = st ("account:" ++ se.account ++ ":last_block") + u64AsI64 e.block_num)
    ∧ (∀ le, e.data = some { event := some (.like le) } →
        storeActivityStep st e ("account:" ++ le.account ++ ":events")
          = st ("account:" ++ le.account ++ ":events") + 1
        ∧ storeActivityStep st e ("account:" ++ le.account ++ ":last_block")
          = st ("account:" ++ le.account ++ ":last_block") + u64AsI64 e.block_num)
    ∧ (∀ k, k ∉ statsKeys e → storeStatsStep st e k = st k)
    ∧ (∀ k, k ∉ activityKeys e → storeActivityStep st e k = st k)
    ∧ (e.block_num < 9223372036854775808 → u64AsI64 e.block_num = e.block_num) := by
  rcases e with ⟨tx, bn, ts, et, data⟩
  refine ⟨?_, ?_, ?_, ?_, ?_, ?_, ?_, ?_, ?_, ?_, ?_, ?_⟩
  · rcases data with _ | ⟨_ | d⟩
    · simp [storeStatsStep, storeAdd_apply]
    · simp [storeStatsStep, storeAdd_apply]
    · cases d <;> simp [storeStatsStep, storeAdd_apply]
  · rintro pe rfl
    simp [storeStatsStep, storeAdd_apply]
  · rintro ve rfl
    simp [storeStatsStep, storeAdd_apply]
  · rintro se rfl
    simp [storeStatsStep, storeAdd_apply]
  · rintro le rfl
    simp [storeStatsStep, storeAdd_apply]
  · rintro pe rfl
    refine ⟨?_, ?_⟩ <;>
      simp [storeActivityStep, storeAdd_apply, acct_keys_ne pe.author,
        (acct_keys_ne pe.author).symm]
  · rintro ve rfl
    refine ⟨?_, ?_⟩ <;>
      simp [storeActivityStep, storeAdd_apply, acct_keys_ne ve.voter,
        (acct_keys_ne ve.voter).symm]
  · rintro se rfl
    refine ⟨?_, ?_⟩ <;>
      simp [storeActivityStep, storeAdd_apply, acct_keys_ne se.account,
        (acct_keys_ne se.account).symm]
  · rintro le rfl
    refine ⟨?_, ?_⟩ <;>
      simp [storeActivityStep, storeAdd_apply, acct_keys_ne le.account,
        (acct_keys_ne le.account).symm]
  · intro k hk
    rcases data with _ | ⟨_ | d⟩
    · simp [statsKeys] at hk
      simp [storeStatsStep, storeAdd_apply, hk]
    · simp [statsKeys] at hk
      simp [storeStatsStep, storeAdd_apply, hk]
    · cases d <;> simp [statsKeys] at hk <;>
        simp [storeStatsStep, storeAdd_apply, hk]
  · intro k hk
    rcases data with _ | ⟨_ | d⟩
    · simp [storeActivityStep]
    · simp [storeActivityStep]
    · cases d <;> simp [activityKeys] at hk <;>
        simp [storeActivityStep, storeAdd_apply] <;>
        simp [hk.1, hk.2]
  · intro h
    simp only [u64AsI64]
    rw [if_pos h]

/-- Witness for C7 at a concrete PUT event. -/
theorem store_step_effects_witness :
    (storeStatsStep zeroStore
        { tx_hash := "t", block_num := 7, timestamp := 1, event_type := "PUT",
          data := some { event := some (.put
            { author := "alice", type_ := 1, hash := "h", parent := "",
              ts := 5, tags := [], expires_at := 0 }) } } "total_puts"
      = zeroStore "total_puts" + 1)
    ∧ (storeActivityStep zeroStore
        { tx_hash := "t", block_num := 7, timestamp := 1, event_type := "PUT",
          data := some { event := some (.put
            { author := "alice", type_ := 1, hash := "h", parent := "",
              ts := 5, tags := [], expires_at := 0 }) } }
        ("account:" ++ "alice" ++ ":events")
      = zeroStore ("account:" ++ "alice" ++ ":events") + 1) := by
  have h := store_step_effects zeroStore
    { tx_hash := "t", block_num := 7, timestamp := 1, event_type := "PUT",
      data := some { event := some (.put
        { author := "alice", type_ := 1, hash := "h", parent := "",
          ts := 5, tags := [], expires_at := 0 }) } }
  exact ⟨h.2.1 _ rfl, (h.2.2.2.2.2.1 _ rfl).1⟩

/-! ## Filter correctness (C5) -/

/-- Drop the action traces of a transaction whose receiver is not the
configured contract. -/
def scrubTrx (c : String) (t : TransactionTrace) : TransactionTrace :=
  { t with action_traces := t.action_traces.filter (fun tr => tr.receiver = c) }

/-- Drop receipt-less transactions and non-matching action traces from a
block, leaving everything else unchanged. -/
def scrubBlock (c : String) (b : Block) : Block :=
  { b with transactions :=
      (b.transactions.filter (fun t => t.receipt.isSome)).map (scrubTrx c) }

theorem filterMap_pairs_scrub {β : Type} (c : String)
    (F : ActionTrace × TransactionTrace → Option β)
    (hrecv : ∀ tr t, tr.receiver ≠ c → F (tr, t) = none)
    (hid : ∀ tr t t', t'.id = t.id → F (tr, t') = F (tr, t)) :
    ∀ m : List TransactionTrace,
      (m.flatMap (fun t => t.action_traces.map (fun tr => (tr, t)))).filterMap F
        = ((m.map (scrubTrx c)).flatMap
            (fun t => t.action_traces.map (fun tr => (tr, t)))).filterMap F := by
  have inner : ∀ (t : TransactionTrace) (l : List ActionTrace),
      (l.map (fun tr => (tr, t))).filterMap F
        = ((l.filter (fun tr => tr.receiver = c)).map
            (fun tr => (tr, scrubTrx c t))).filterMap F := by
    intro t l
    induction l with
    | nil => rfl
    | cons tr l ih =>
      by_cases hr : tr.receiver = c
      · rw [List.map_cons, List.filterMap_cons,
          List.filter_cons_of_pos (by simp [hr]),
          List.map_cons, List.filterMap_cons,
          hid tr t (scrubTrx c t) rfl]
        cases F (tr, t)
        · exact ih
        · rw [ih]
      · rw [List.map_cons, List.filterMap_cons, hrecv tr t hr,
          List.filter_cons_of_neg (by simp [hr])]
        exact ih
  intro m
  induction m with
  | nil => rfl
  | cons t m ih =>
    simp only [List.map_cons, List.flatMap_cons, List.filterMap_append]
    rw [ih, inner t t.action_traces]
    rfl

/-- C5: for every block and every configured contract account, an action
trace whose receiver differs from the configured contract account, or
which belongs to a transaction without an execution receipt, contributes
no element to any output of `map_events` or `map_anchored_events` (and
hence no counter update): every output is unchanged when such traces and
transactions are removed from the block. -/
theorem filter_scrub_invariance :
    ∀ (fromStr : String → Option Json) (d : Decoders) (p : String) (b : Block),
      map_events d p b = map_events d p (scrubBlock (contractOf p) b)
      ∧ map_anchored_events fromStr d p b
          = map_anchored_events fromStr d p (scrubBlock (contractOf p) b)
      ∧ (∀ k, store_stats (map_events d p b).events zeroStore k
            = store_stats (map_events d p (scrubBlock (contractOf p) b)).events
                zeroStore k)
      ∧ (∀ k, store_account_activity (map_events d p b).events zeroStore k
            = store_account_activity
                (map_events d p (scrubBlock (contractOf p) b)).events zeroStore k) := by
  intro fromStr d p b
  have hfilter :
      ((b.transactions.filter (fun t => t.receipt.isSome)).map
          (scrubTrx (contractOf p))).filter (fun t => t.receipt.isSome)
        = (b.transactions.filter (fun t => t.receipt.isSome)).map
            (scrubTrx (contractOf p)) := by
    rw [List.filter_eq_self]
    intro t ht
    rcases List.mem_map.mp ht with ⟨t₀, ht₀, rfl⟩
    exact (List.mem_filter.mp ht₀).2
  have hpairs : actionTracePairs (scrubBlock (contractOf p) b)
      = ((b.transactions.filter (fun t => t.receipt.isSome)).map
          (scrubTrx (contractOf p))).flatMap
            (fun t => t.action_traces.map (fun tr => (tr, t))) := by
    show ((scrubBlock (contractOf p) b).transactions.filter
        (fun t => t.receipt.isSome)).flatMap _ = _
    rw [show (scrubBlock (contractOf p) b).transactions
        = (b.transactions.filter (fun t => t.receipt.isSome)).map
            (scrubTrx (contractOf p)) from rfl, hfilter]
  have hev : map_events d p b = map_events d p (scrubBlock (contractOf p) b) := by
    show Events.mk _ = Events.mk _
    congr 1
    show (actionTracePairs b).filterMap (processEvent d (contractOf p) b) = _
    have hpe : processEvent d (contractOf p) (scrubBlock (contractOf p) b)
        = processEvent d (contractOf p) b := rfl
    rw [hpairs, hpe]
    exact filterMap_pairs_scrub (contractOf p) _
      (fun tr t h => by simp [processEvent, h])
      (fun tr t t' h => by simp [processEvent, h])
      (b.transactions.filter (fun t => t.receipt.isSome))
  refine ⟨hev, ?_, fun k => by rw [hev], fun k => by rw [hev]⟩
  show AnchoredEvents.mk _ = AnchoredEvents.mk _
  congr 1
  show (actionTracePairs b).filterMap _ = (actionTracePairs _).filterMap _
  rw [hpairs]
  exact filterMap_pairs_scrub (contractOf p)
    (fun pr => (processAnchored fromStr d (contractOf p) b.id b.number
        (blockTimestamp b) pr).1)
    (fun tr t h => by simp [processAnchored, h])
    (fun tr t t' h => by simp [processAnchored, h])
    (b.transactions.filter (fun t => t.receipt.isSome))

/-! ## Order preservation (C6) -/

theorem filterMap_exists_index {α β : Type} (f : α → Option β) :
    ∀ (l : List α) (j : Nat) (b : β),
      l[j]?.bind f = some b → ∃ q : Nat, (l.filterMap f)[q]? = some b := by
  intro l
  induction l with
  | nil => intro j b h; simp at h
  | cons x xs ih =>
    intro j b h
    cases j with
    | zero =>
      simp only [List.getElem?_cons_zero, Option.some_bind] at h
      exact ⟨0, by simp [List.filterMap_cons, h]⟩
    | succ j' =>
      simp only [List.getElem?_cons_succ] at h
      rcases ih j' b h with ⟨q, hq⟩
      rw [List.filterMap_cons]
      cases f x
      · exact ⟨q, hq⟩
      · exact ⟨q + 1, by simpa using hq⟩

theorem filterMap_order_index {α β : Type} (f : α → Option β) :
    ∀ (l : List α) (i j : Nat), i < j →
      ∀ a b, l[i]?.bind f = some a → l[j]?.bind f = some b →
      ∃ p q : Nat, p < q ∧ (l.filterMap f)[p]? = some a
        ∧ (l.filterMap f)[q]? = some b := by
  intro l
  induction l with
  | nil => intro i j hij a b ha; simp at ha
  | cons x xs ih =>
    intro i j hij a b ha hb
    cases i with
    | zero =>
      simp only [List.getElem?_cons_zero, Option.some_bind] at ha
      cases j with
      | zero => exact absurd hij (by omega)
      | succ j' =>
        simp only [List.getElem?_cons_succ] at hb
        rcases filterMap_exists_index f xs j' b hb with ⟨q, hq⟩
        refine ⟨0, q + 1, by omega, ?_, ?_⟩
        · simp [List.filterMap_cons, ha]
        · simp [List.filterMap_cons, ha]
          simpa using hq
    | succ i' =>
      cases j with
      | zero => exact absurd hij (by omega)
      | succ j' =>
        simp only [List.getElem?_cons_succ] at ha hb
        rcases ih i' j' (by omega) a b ha hb with ⟨p, q, hpq, hp, hq⟩
        rw [List.filterMap_cons]
        cases f x
        · exact ⟨p, q, hpq, hp, hq⟩
        · exact ⟨p + 1, q + 1, by omega, by simpa using hp, by simpa using hq⟩

/-- C6: for every block, the sequence of Events produced by `map_events`
preserves the execution order of the originating action traces: the
output is exactly the order-preserving compaction (`filterMap`) of the
per-trace results over the execution-ordered trace-pair sequence
(transaction order, then in-transaction trace order), each trace pair
yields zero or one Event, and whenever two trace positions `i < j` both
yield events, those events occur at output positions `q₁ < q₂`. -/
theorem map_events_order :
    ∀ (d : Decoders) (p : String) (b : Block),
      ((map_events d p b).events
        = (actionTracePairs b).filterMap (processEvent d (contractOf p) b))
      ∧ (∀ i j : Nat, i < j → ∀ e₁ e₂,
          (actionTracePairs b)[i]?.bind (processEvent d (contractOf p) b) = some e₁ →
          (actionTracePairs b)[j]?.bind (processEvent d (contractOf p) b) = some e₂ →
          ∃ q₁ q₂ : Nat, q₁ < q₂
            ∧ (map_events d p b).events[q₁]? = some e₁
            ∧ (map_events d p b).events[q₂]? = some e₂) := by
  intro d p b
  refine ⟨rfl, fun i j hij e₁ e₂ h₁ h₂ => ?_⟩
  exact filterMap_order_index (processEvent d (contractOf p) b)
    (actionTracePairs b) i j hij e₁ e₂ h₁ h₂

/-- Sample ABI decoder instantiation used by concrete witnesses: decodes
the one-byte payload `[1]` as a fixed `put` record and `[2]` as a fixed
`vote` record, failing on everything else (a legitimate instance of the
spec's external decode capability). -/
def decSample : Decoders where
  put := fun bs => if bs = [1] then
      .ok { author := "alice", type_ := 1, hash := "abc123", event_cid := "cid",
            parent := "", ts := 5, tags := [] }
    else .error "decode"
  attest := fun _ => .error "decode"
  vote := fun bs => if bs = [2] then
      .ok { voter := "bob", tx_hash := "t1", val := 1 }
    else .error "decode"
  finalize := fun _ => .error "decode"
  stake := fun _ => .error "decode"
  unstake := fun _ => .error "decode"
  like := fun _ => .error "decode"
  unlike := fun _ => .error "decode"
  updrespect := fun _ => .error "decode"

/-- Sample block with one executed transaction holding a `put` trace
followed by a `vote` trace, both received by `polaris`. -/
def blkSample : Block where
  id := "blk"
  number := 42
  header := some { timestamp := some { seconds := 1000 } }
  transactions :=
    [{ id := "tx1", receipt := some (),
       action_traces :=
         [{ receiver := "polaris", execution_index := 0,
            action := some { name := "put", json_data := "", raw_data := [1] } },
          { receiver := "polaris", execution_index := 1,
            action := some { name := "vote", json_data := "", raw_data := [2] } }] }]

/-- Witness for C6 on `blkSample`: the `put` event precedes the `vote`
event in the output. -/
theorem map_events_order_witness :
    ∃ q₁ q₂ : Nat, q₁ < q₂
      ∧ (map_events decSample "" blkSample).events[q₁]?
          = some { tx_hash := "tx1", block_num := 42, timestamp := 1000,
                   event_type := "PUT",
                   data := some { event := some (.put
                     { author := "alice", type_ := 1, hash := "abc123",
                       parent := "", ts := 5, tags := [], expires_at := 0 }) } }
      ∧ (map_events decSample "" blkSample).events[q₂]?
          = some { tx_hash := "tx1", block_num := 42, timestamp := 1000,
                   event_type := "VOTE",
                   data := some { event := some (.vote
                     { voter := "bob", tx_hash := "t1", val := 1,
                       weight := 0 }) } } :=
  (map_events_order decSample "" blkSample).2 0 1 (by omega) _ _
    (by decide) (by decide)

/-! ## Inversion of the anchored-event emitter -/

/-- Any emitted `AnchoredEvent` comes from a matching trace whose action
is named `put`, `vote` or `finalize`, and carries the JSON document of
its processing path as payload, with `event_hash` the hex SHA-256 of
exactly those payload bytes and all provenance fields copied from the
block context. -/
theorem processAnchored_emitted (fromStr : String → Option Json) (d : Decoders)
    (c bid : String) (bn bt : Nat) (tr : ActionTrace) (t : TransactionTrace)
    (e : AnchoredEvent)
    (h : (processAnchored fromStr d c bid bn bt (tr, t)).1 = some e) :
    ∃ a : Action, tr.receiver = c ∧ tr.action = some a
      ∧ (a.name = "put" ∨ a.name = "vote" ∨ a.name = "finalize")
      ∧ ∃ js : String,
          (anchoredPayload fromStr d a).1 = some (js, e.content_hash)
          ∧ e.event_hash = sha256Hex (strBytes js) ∧ e.payload = strBytes js
          ∧ e.block_num = bn ∧ e.block_id = bid ∧ e.trx_id = t.id
          ∧ e.action_ordinal = tr.execution_index ∧ e.timestamp = bt
          ∧ e.source = "substreams-eos" ∧ e.contract_account = c
          ∧ e.action_name = a.name := by
  by_cases hr : tr.receiver = c
  case neg =>
    exfalso
    simp [processAnchored, hr] at h
  rcases ha : tr.action with _ | a
  · exfalso
    simp [processAnchored, hr, ha] at h
  by_cases hn : a.name ≠ "put" ∧ a.name ≠ "vote" ∧ a.name ≠ "finalize"
  · exfalso
    simp [processAnchored, hr, ha, hn] at h
  have hset : a.name = "put" ∨ a.name = "vote" ∨ a.name = "finalize" := by
    by_cases h1 : a.name = "put"
    · exact Or.inl h1
    by_cases h2 : a.name = "vote"
    · exact Or.inr (Or.inl h2)
    by_cases h3 : a.name = "finalize"
    · exact Or.inr (Or.inr h3)
    exact absurd ⟨h1, h2, h3⟩ hn
  refine ⟨a, hr, rfl, hset, ?_⟩
  rcases hap : anchoredPayload fromStr d a with ⟨os, logs⟩
  rcases os with _ | ⟨js, ch⟩
  · exfalso
    simp [processAnchored, hr, ha, hn, hap] at h
  · refine ⟨js, ?_⟩
    simp [processAnchored, hr, ha, hn, hap] at h
    subst h
    exact ⟨rfl, rfl, rfl, rfl, rfl, rfl, rfl, rfl, rfl, rfl, rfl⟩

/-! ## Determinism (C8) -/

/-- C8: `map_events` and `map_anchored_events` are deterministic: any
two invocations on equal `(params, block)` inputs (with the same
external parse/decode capabilities) return identical `Events` and
`AnchoredEvents` sequences and induce identical counter deltas. The
embedding is a pure function of its inputs: no clock, randomness or
unordered-map iteration appears anywhere in the model. -/
theorem pipeline_deterministic :
    ∀ (fromStr₁ fromStr₂ : String → Option Json) (d₁ d₂ : Decoders)
      (p₁ p₂ : String) (b₁ b₂ : Block),
      fromStr₁ = fromStr₂ → d₁ = d₂ → p₁ = p₂ → b₁ = b₂ →
      map_events d₁ p₁ b₁ = map_events d₂ p₂ b₂
      ∧ map_anchored_events fromStr₁ d₁ p₁ b₁
          = map_anchored_events fromStr₂ d₂ p₂ b₂
      ∧ (∀ k, store_stats (map_events d₁ p₁ b₁).events zeroStore k
            = store_stats (map_events d₂ p₂ b₂).events zeroStore k)
      ∧ (∀ k, store_account_activity (map_events d₁ p₁ b₁).events zeroStore k
            = store_account_activity (map_events d₂ p₂ b₂).events zeroStore k) := by
  rintro f₁ f₂ d₁ d₂ p₁ p₂ b₁ b₂ rfl rfl rfl rfl
  exact ⟨rfl, rfl, fun _ => rfl, fun _ => rfl⟩

/-- Witness for C8 at a concrete input. -/
theorem pipeline_deterministic_witness :
    map_events decSample "" blkSample = map_events decSample "" blkSample
    ∧ map_anchored_events (fun _ => none) decSample "" blkSample
        = map_anchored_events (fun _ => none) decSample "" blkSample :=
  ⟨(pipeline_deterministic (fun _ => none) (fun _ => none) decSample decSample
      "" "" blkSample blkSample rfl rfl rfl rfl).1,
   (pipeline_deterministic (fun _ => none) (fun _ => none) decSample decSample
      "" "" blkSample blkSample rfl rfl rfl rfl).2.1⟩

/-! ## Anchored action-name filter (C10) -/

/-- C10: `map_anchored_events` emits an `AnchoredEvent` only for actions
named `put`, `vote` or `finalize`; any action with another name
contributes nothing; and a non-`put` action carrying no JSON payload is
skipped with no attempt at binary decoding — its processing result does
not depend on the decode capability at all. -/
theorem anchored_action_filter :
    ∀ (fromStr : String → Option Json) (d d' : Decoders) (p : String) (b : Block)
      (c bid : String) (bn bt : Nat) (pr : ActionTrace × TransactionTrace)
      (a : Action),
      (∀ e ∈ (map_anchored_events fromStr d p b).events,
        e.action_name = "put" ∨ e.action_name = "vote" ∨ e.action_name = "finalize")
      ∧ (pr.1.action = some a →
          a.name ≠ "put" → a.name ≠ "vote" → a.name ≠ "finalize" →
          (processAnchored fromStr d c bid bn bt pr).1 = none)
      ∧ (pr.1.action = some a → a.name ≠ "put" → a.json_data = "" →
          (processAnchored fromStr d c bid bn bt pr).1 = none
          ∧ processAnchored fromStr d c bid bn bt pr
              = processAnchored fromStr d' c bid bn bt pr) := by
  intro fromStr d d' p b c bid bn bt pr a
  refine ⟨?_, ?_, ?_⟩
  · intro e he
    rcases List.mem_filterMap.mp he with ⟨⟨tr, t⟩, hmem, hpr⟩
    rcases processAnchored_emitted fromStr d (contractOf p) b.id b.number
        (blockTimestamp b) tr t e hpr with
      ⟨a', -, -, hset, js, -, -, -, -, -, -, -, -, -, -, hname⟩
    rw [hname]
    exact hset
  · rcases pr with ⟨tr, t⟩
    intro ha h1 h2 h3
    have ha' : tr.action = some a := ha
    by_cases hr : tr.receiver = c
    · simp [processAnchored, hr, ha', h1, h2, h3]
    · simp [processAnchored, hr]
  · rcases pr with ⟨tr, t⟩
    intro ha hp hj
    have ha' : tr.action = some a := ha
    by_cases hr : tr.receiver = c
    · by_cases hn : a.name ≠ "put" ∧ a.name ≠ "vote" ∧ a.name ≠ "finalize"
      · constructor <;> simp [processAnchored, hr, ha', hn]
      · constructor
        · simp [processAnchored, anchoredPayload, hr, ha', hn, hp, hj]
          split <;> rfl
        · simp [processAnchored, anchoredPayload, hr, ha', hn, hp, hj]
    · constructor <;> simp [processAnchored, hr]

/-- A second sample decoder, differing from `decSample` on `put`. -/
def decSample2 : Decoders where
  put := fun _ =>
    Except.ok { author := "zoe", type_ := 0, hash := "zzz", event_cid := "",
                parent := "", ts := 0, tags := [] }
  attest := decSample.attest
  vote := decSample.vote
  finalize := decSample.finalize
  stake := decSample.stake
  unstake := decSample.unstake
  like := decSample.like
  unlike := decSample.unlike
  updrespect := decSample.updrespect

/-- Witness for C10: an `attest` action contributes nothing, and a
`vote` action without JSON payload is skipped identically under two
different decoders. -/
theorem anchored_action_filter_witness :
    ((processAnchored (fun _ => none) decSample "polaris" "b" 1 2
        ({ receiver := "polaris", execution_index := 0,
           action := some { name := "attest", json_data := "x", raw_data := [] } },
         { id := "t", receipt := some (), action_traces := [] })).1 = none)
    ∧ ((processAnchored (fun _ => none) decSample "polaris" "b" 1 2
        ({ receiver := "polaris", execution_index := 0,
           action := some { name := "vote", json_data := "", raw_data := [9] } },
         { id := "t", receipt := some (), action_traces := [] })).1 = none)
    ∧ processAnchored (fun _ => none) decSample "polaris" "b" 1 2
        ({ receiver := "polaris", execution_index := 0,
           action := some { name := "vote", json_data := "", raw_data := [9] } },
         { id := "t", receipt := some (), action_traces := [] })
        = processAnchored (fun _ => none) decSample2 "polaris" "b" 1 2
        ({ receiver := "polaris", execution_index := 0,
           action := some { name := "vote", json_data := "", raw_data := [9] } },
         { id := "t", receipt := some (), action_traces := [] }) := by
  refine ⟨?_, ?_, ?_⟩
  · exact (anchored_action_filter (fun _ => none) decSample decSample2 "" blkSample
      "polaris" "b" 1 2 _ _).2.1 rfl (by decide) (by decide) (by decide)
  · exact ((anchored_action_filter (fun _ => none) decSample decSample2 "" blkSample
      "polaris" "b" 1 2 _ _).2.2 rfl (by decide) rfl).1
  · exact ((anchored_action_filter (fun _ => none) decSample decSample2 "" blkSample
      "polaris" "b" 1 2 _ _).2.2 rfl (by decide) rfl).2

/-! ## Content-hash fallback for `put` (C4) -/

/-- C4 (amended): for every `put` action whose JSON payload parses but
omits the `hash` field, or whose JSON fails to parse entirely,
`map_anchored_events` still emits an `AnchoredEvent` for it, with
`content_hash` equal to `event_hash` (the fallback payload-bytes hash);
the failure never suppresses the event. A diagnostic is recorded when
the JSON fails to parse; when the JSON parses but merely lacks a usable
`hash` field, no diagnostic is recorded. -/
theorem put_hash_fallback :
    ∀ (fromStr : String → Option Json) (d : Decoders) (c bid : String)
      (bn bt : Nat) (tr : ActionTrace) (t : TransactionTrace) (a : Action),
      tr.receiver = c → tr.action = some a → a.name = "put" → a.json_data ≠ "" →
      (fromStr a.json_data = none ∨
        (∃ v, fromStr a.json_data = some v ∧ (v.get "hash").bind Json.asStr = none)) →
      (∃ e : AnchoredEvent,
          (processAnchored fromStr d c bid bn bt (tr, t)).1 = some e
          ∧ e.content_hash = e.event_hash
          ∧ e.content_hash = sha256Hex (strBytes a.json_data))
      ∧ (fromStr a.json_data = none →
          (processAnchored fromStr d c bid bn bt (tr, t)).2
            = ["Failed to parse put action JSON for content_hash"])
      ∧ (∀ v, fromStr a.json_data = some v →
          (processAnchored fromStr d c bid bn bt (tr, t)).2 = []) := by
  intro fromStr d c bid bn bt tr t a hr ha hp hj hcase
  rcases hcase with hfs | ⟨v, hfs, hget⟩
  · have hmain : (processAnchored fromStr d c bid bn bt (tr, t)).1
        = some { content_hash := sha256Hex (strBytes a.json_data),
                 event_hash := sha256Hex (strBytes a.json_data),
                 payload := strBytes a.json_data, block_num := bn, block_id := bid,
                 trx_id := t.id, action_ordinal := tr.execution_index,
                 timestamp := bt, source := "substreams-eos",
                 contract_account := c, action_name := a.name } := by
      simp [processAnchored, anchoredPayload, hr, ha, hp, hj, hfs]
    refine ⟨⟨_, hmain, rfl, rfl⟩, fun _ => ?_, fun v hv => ?_⟩
    · simp [processAnchored, anchoredPayload, hr, ha, hp, hj, hfs]
    · rw [hfs] at hv
      exact absurd hv (by simp)
  · have hmain : (processAnchored fromStr d c bid bn bt (tr, t)).1
        = some { content_hash := sha256Hex (strBytes a.json_data),
                 event_hash := sha256Hex (strBytes a.json_data),
                 payload := strBytes a.json_data, block_num := bn, block_id := bid,
                 trx_id := t.id, action_ordinal := tr.execution_index,
                 timestamp := bt, source := "substreams-eos",
                 contract_account := c, action_name := a.name } := by
      simp [processAnchored, anchoredPayload, hr, ha, hp, hj, hfs, hget]
    refine ⟨⟨_, hmain, rfl, rfl⟩, fun hv => ?_, fun w hw => ?_⟩
    · rw [hfs] at hv
      exact absurd hv (by simp)
    · simp [processAnchored, anchoredPayload, hr, ha, hp, hj, hfs, hget]

/-- The `serde_json::from_str` instantiation that parses the document
`\x7b\x7d` (the empty JSON object) exactly as `serde_json` would. -/
def fromStrEmptyObj : String → Option Json :=
  fun s => if s = "\x7b\x7d" then some (Json.obj []) else none

/-- Block holding one executed transaction with a single `put` action
whose JSON payload is the empty object — it parses but omits `hash`. -/
def blkPutNoHash : Block where
  id := "b2"
  number := 9
  header := some { timestamp := some { seconds := 77 } }
  transactions :=
    [{ id := "tx", receipt := some (),
       action_traces :=
         [{ receiver := "polaris", execution_index := 0,
            action := some { name := "put", json_data := "\x7b\x7d",
                             raw_data := [] } }] }]

set_option maxRecDepth 40000 in
/-- Counterexample for C4 as stated: on a `put` whose JSON parses but
omits `hash`, the event is emitted with `content_hash = event_hash`
(fallback engaged), yet NO diagnostic is recorded — the log list for the
action is empty, contradicting "a diagnostic is recorded". -/
theorem put_missing_hash_diagnostic_cex :
    (map_anchored_events fromStrEmptyObj decSample "" blkPutNoHash).events.length = 1
    ∧ ((map_anchored_events fromStrEmptyObj decSample "" blkPutNoHash).events.map
          AnchoredEvent.content_hash
        = (map_anchored_events fromStrEmptyObj decSample "" blkPutNoHash).events.map
          AnchoredEvent.event_hash)
    ∧ (processAnchored fromStrEmptyObj decSample "polaris" "b2" 9 77
        ({ receiver := "polaris", execution_index := 0,
           action := some { name := "put", json_data := "\x7b\x7d", raw_data := [] } },
         { id := "tx", receipt := some (),
           action_traces :=
             [{ receiver := "polaris", execution_index := 0,
                action := some { name := "put", json_data := "\x7b\x7d",
                                 raw_data := [] } }] })).2 = [] := by
  decide

/-- Witness for C4 (amended) at the concrete empty-object scenario. -/
theorem put_hash_fallback_witness :
    (processAnchored fromStrEmptyObj decSample "polaris" "b2" 9 77
        ({ receiver := "polaris", execution_index := 0,
           action := some { name := "put", json_data := "\x7b\x7d", raw_data := [] } },
         { id := "tx", receipt := some (), action_traces := [] })).2 = [] := by
  exact (put_hash_fallback fromStrEmptyObj decSample "polaris" "b2" 9 77
      { receiver := "polaris", execution_index := 0,
        action := some { name := "put", json_data := "\x7b\x7d", raw_data := [] } }
      { id := "tx", receipt := some (), action_traces := [] }
      { name := "put", json_data := "\x7b\x7d", raw_data := [] }
      rfl rfl rfl (by decide)
      (Or.inr ⟨Json.obj [], rfl, rfl⟩)).2.2 (Json.obj []) rfl

/-! ## Cross-path content-hash equivalence (C3) -/

/-- C3: for every `put` action whose logical content is available both
as a JSON payload and as an equivalent raw-binary payload (the parsed
JSON carries a string `hash` field equal to the `hash` field of the
binary-decoded record), the `AnchoredEvent` produced carries the same
`content_hash` — the `hash` value verbatim — no matter which of the two
decode paths was exercised. -/
theorem content_hash_cross_path :
    ∀ (fromStr : String → Option Json) (d : Decoders) (c bid : String)
      (bn bt : Nat) (trJ trR : ActionTrace) (t t' : TransactionTrace)
      (aJ aR : Action) (v : Json) (put : PutAction) (hsh : String),
      trJ.receiver = c → trJ.action = some aJ → aJ.name = "put" →
      aJ.json_data ≠ "" →
      trR.receiver = c → trR.action = some aR → aR.name = "put" →
      aR.json_data = "" →
      fromStr aJ.json_data = some v →
      (v.get "hash").bind Json.asStr = some hsh →
      d.put aR.raw_data = .ok put → put.hash = hsh →
      ∃ eJ eR : AnchoredEvent,
        (processAnchored fromStr d c bid bn bt (trJ, t)).1 = some eJ
        ∧ (processAnchored fromStr d c bid bn bt (trR, t')).1 = some eR
        ∧ eJ.content_hash = hsh ∧ eR.content_hash = hsh := by
  intro fromStr d c bid bn bt trJ trR t t' aJ aR v put hsh
  intro hrJ haJ hpJ hjJ hrR haR hpR hjR hfs hget hd hhash
  have hJ : (processAnchored fromStr d c bid bn bt (trJ, t)).1
      = some { content_hash := hsh,
               event_hash := sha256Hex (strBytes aJ.json_data),
               payload := strBytes aJ.json_data, block_num := bn, block_id := bid,
               trx_id := t.id, action_ordinal := trJ.execution_index,
               timestamp := bt, source := "substreams-eos",
               contract_account := c, action_name := aJ.name } := by
    simp [processAnchored, anchoredPayload, hrJ, haJ, hpJ, hjJ, hfs, hget]
  have hR : (processAnchored fromStr d c bid bn bt (trR, t')).1
      = some { content_hash := put.hash,
               event_hash := sha256Hex (strBytes (renderJson (.obj
                 [("author", .str put.author), ("event_cid", .str put.event_cid),
                  ("hash", .str put.hash), ("parent", .str put.parent),
                  ("tags", .arr (put.tags.map .str)), ("ts", .num put.ts),
                  ("type", .num put.type_)]))),
               payload := strBytes (renderJson (.obj
                 [("author", .str put.author), ("event_cid", .str put.event_cid),
                  ("hash", .str put.hash), ("parent", .str put.parent),
                  ("tags", .arr (put.tags.map .str)), ("ts", .num put.ts),
                  ("type", .num put.type_)])), block_num := bn, block_id := bid,
               trx_id := t'.id, action_ordinal := trR.execution_index,
               timestamp := bt, source := "substreams-eos",
               contract_account := c, action_name := aR.name } := by
    simp [processAnchored, anchoredPayload, hrR, haR, hpR, hjR, hd]
  exact ⟨_, _, hJ, hR, rfl, hhash⟩

/-- The `serde_json::from_str` instantiation that parses the document
`\x7b"hash":"abc123"\x7d` exactly as `serde_json` would. -/
def fromStrHash : String → Option Json :=
  fun s => if s = "\x7b\"hash\":\"abc123\"\x7d" then
      some (Json.obj [("hash", Json.str "abc123")])
    else none

/-- Witness for C3: the JSON path (document carrying `hash = abc123`)
and the raw path (`decSample` decodes `[1]` to a record with
`hash = abc123`) resolve the same `content_hash`. -/
theorem content_hash_cross_path_witness :
    ((processAnchored fromStrHash decSample "polaris" "b" 1 2
        ({ receiver := "polaris", execution_index := 0,
           action := some { name := "put",
                            json_data := "\x7b\"hash\":\"abc123\"\x7d",
                            raw_data := [] } },
         { id := "t", receipt := some (), action_traces := [] })).1.map
        AnchoredEvent.content_hash = some "abc123")
    ∧ ((processAnchored fromStrHash decSample "polaris" "b" 1 2
        ({ receiver := "polaris", execution_index := 1,
           action := some { name := "put", json_data := "", raw_data := [1] } },
         { id := "t2", receipt := some (), action_traces := [] })).1.map
        AnchoredEvent.content_hash = some "abc123") := by
  obtain ⟨eJ, eR, h1, h2, h3, h4⟩ := content_hash_cross_path fromStrHash decSample
    "polaris" "b" 1 2
    { receiver := "polaris", execution_index := 0,
      action := some { name := "put",
                       json_data := "\x7b\"hash\":\"abc123\"\x7d",
                       raw_data := [] } }
    { receiver := "polaris", execution_index := 1,
      action := some { name := "put", json_data := "", raw_data := [1] } }
    { id := "t", receipt := some (), action_traces := [] }
    { id := "t2", receipt := some (), action_traces := [] }
    { name := "put", json_data := "\x7b\"hash\":\"abc123\"\x7d", raw_data := [] }
    { name := "put", json_data := "", raw_data := [1] }
    (Json.obj [("hash", Json.str "abc123")])
    { author := "alice", type_ := 1, hash := "abc123", event_cid := "cid",
      parent := "", ts := 5, tags := [] }
    "abc123"
    rfl rfl rfl (by decide) rfl rfl rfl rfl rfl rfl rfl rfl
  rw [h1, h2]
  simp [h3, h4]

/-! ## Missing-timestamp behavior (C9) -/

theorem extract_put_event_inv (d : Decoders) (tx : String) (bn ts : Nat)
    (a : Action) (e : Event) (h : extract_put_event d tx bn ts a = some e) :
    e.timestamp = ts ∧ e.block_num = bn := by
  simp only [extract_put_event] at h
  split at h
  · simp at h
  · injection h with h2
    subst h2
    exact ⟨rfl, rfl⟩

theorem extract_attest_event_inv (d : Decoders) (tx : String) (bn ts : Nat)
    (a : Action) (e : Event) (h : extract_attest_event d tx bn ts a = some e) :
    e.timestamp = ts ∧ e.block_num = bn := by
  simp only [extract_attest_event] at h
  split at h
  · simp at h
  · injection h with h2
    subst h2
    exact ⟨rfl, rfl⟩

theorem extract_vote_event_inv (d : Decoders) (tx : String) (bn ts : Nat)
    (a : Action) (e : Event) (h : extract_vote_event d tx bn ts a = some e) :
    e.timestamp = ts ∧ e.block_num = bn := by
  simp only [extract_vote_event] at h
  split at h
  · simp at h
  · injection h with h2
    subst h2
    exact ⟨rfl, rfl⟩

theorem extract_finalize_event_inv (d : Decoders) (tx : String) (bn ts : Nat)
    (a : Action) (e : Event) (h : extract_finalize_event d tx bn ts a = some e) :
    e.timestamp = ts ∧ e.block_num = bn := by
  simp only [extract_finalize_event] at h
  split at h
  · simp at h
  · injection h with h2
    subst h2
    exact ⟨rfl, rfl⟩

theorem extract_stake_event_inv (d : Decoders) (tx : String) (bn ts : Nat)
    (a : Action) (e : Event) (h : extract_stake_event d tx bn ts a = some e) :
    e.timestamp = ts ∧ e.block_num = bn := by
  simp only [extract_stake_event] at h
  split at h
  · simp at h
  · injection h with h2
    subst h2
    exact ⟨rfl, rfl⟩

theorem extract_unstake_event_inv (d : Decoders) (tx : String) (bn ts : Nat)
    (a : Action) (e : Event) (h : extract_unstake_event d tx bn ts a = some e) :
    e.timestamp = ts ∧ e.block_num = bn := by
  simp only [extract_unstake_event] at h
  split at h
  · simp at h
  · injection h with h2
    subst h2
    exact ⟨rfl, rfl⟩

theorem extract_like_event_inv (d : Decoders) (tx : String) (bn ts : Nat)
    (a : Action) (e : Event) (h : extract_like_event d tx bn ts a = some e) :
    e.timestamp = ts ∧ e.block_num = bn := by
  simp only [extract_like_event] at h
  split at h
  · simp at h
  · injection h with h2
    subst h2
    exact ⟨rfl, rfl⟩

theorem extract_unlike_event_inv (d : Decoders) (tx : String) (bn ts : Nat)
    (a : Action) (e : Event) (h : extract_unlike_event d tx bn ts a = some e) :
    e.timestamp = ts ∧ e.block_num = bn := by
  simp only [extract_unlike_event] at h
  split at h
  · simp at h
  · injection h with h2
    subst h2
    exact ⟨rfl, rfl⟩

theorem extract_update_respect_event_inv (d : Decoders) (tx : String) (bn ts : Nat)
    (a : Action) (e : Event)
    (h : extract_update_respect_event d tx bn ts a = some e) :
    e.timestamp = ts ∧ e.block_num = bn := by
  simp only [extract_update_respect_event] at h
  split at h
  · simp at h
  · injection h with h2
    subst h2
    exact ⟨rfl, rfl⟩

/-- Every event emitted by the `map_events` per-trace closure carries the
block's computed timestamp and number. -/
theorem processEvent_timestamp (d : Decoders) (c : String) (b : Block)
    (tr : ActionTrace) (t : TransactionTrace) (e : Event)
    (h : processEvent d c b (tr, t) = some e) :
    e.timestamp = blockTimestamp b ∧ e.block_num = b.number := by
  by_cases hr : tr.receiver = c
  case neg =>
    exfalso
    simp [processEvent, hr] at h
  rcases ha : tr.action with _ | a
  · exfalso
    simp [processEvent, hr, ha] at h
  simp only [processEvent, hr, ha, ne_eq, not_true_eq_false, if_false] at h
  split at h
  · exact extract_put_event_inv d t.id b.number (blockTimestamp b) a e h
  · exact extract_attest_event_inv d t.id b.number (blockTimestamp b) a e h
  · exact extract_vote_event_inv d t.id b.number (blockTimestamp b) a e h
  · exact extract_finalize_event_inv d t.id b.number (blockTimestamp b) a e h
  · exact extract_stake_event_inv d t.id b.number (blockTimestamp b) a e h
  · exact extract_unstake_event_inv d t.id b.number (blockTimestamp b) a e h
  · exact extract_like_event_inv d t.id b.number (blockTimestamp b) a e h
  · exact extract_unlike_event_inv d t.id b.number (blockTimestamp b) a e h
  · exact extract_update_respect_event_inv d t.id b.number (blockTimestamp b) a e h
  · simp at h

/-- C9 (amended): for every block whose header timestamp is absent, the
timestamp defaults to 0 (`unwrap_or(0)`) and processing continues: every
Event and AnchoredEvent emitted from such a block carries timestamp 0 —
the absent timestamp is NOT treated as a decode failure. -/
theorem missing_timestamp_zero :
    ∀ (fromStr : String → Option Json) (d : Decoders) (p : String) (b : Block),
      b.header.bind (fun hd => hd.timestamp) = none →
      blockTimestamp b = 0
      ∧ (∀ e ∈ (map_events d p b).events, e.timestamp = 0)
      ∧ (∀ e ∈ (map_anchored_events fromStr d p b).events, e.timestamp = 0) := by
  intro fromStr d p b hts
  have h0 : blockTimestamp b = 0 := by
    simp [blockTimestamp, hts]
  refine ⟨h0, ?_, ?_⟩
  · intro e he
    rcases List.mem_filterMap.mp he with ⟨⟨tr, t⟩, hmem, hpr⟩
    rw [(processEvent_timestamp d (contractOf p) b tr t e hpr).1, h0]
  · intro e he
    rcases List.mem_filterMap.mp he with ⟨⟨tr, t⟩, hmem, hpr⟩
    rcases processAnchored_emitted fromStr d (contractOf p) b.id b.number
        (blockTimestamp b) tr t e hpr with
      ⟨a, -, -, -, js, -, -, -, -, -, -, -, hts', -, -, -⟩
    rw [hts', h0]

/-- Block with header present but timestamp absent, holding one executed
transaction with a single `put` action carrying both a JSON payload and
the raw payload `[1]`. -/
def blkNoTs : Block where
  id := "b3"
  number := 5
  header := some { timestamp := none }
  transactions :=
    [{ id := "tx", receipt := some (),
       action_traces :=
         [{ receiver := "polaris", execution_index := 0,
            action := some { name := "put",
                             json_data := "\x7b\"hash\":\"abc123\"\x7d",
                             raw_data := [1] } }] }]

set_option maxRecDepth 40000 in
/-- Counterexample for C9 as stated: in a block whose header timestamp
is absent, a `put` action still yields both an Event and an
AnchoredEvent (with timestamp 0) — it is not treated as a decode
failure and it contributes to both outputs. -/
theorem missing_timestamp_emits_cex :
    (map_events decSample "" blkNoTs).events.length = 1
    ∧ (map_anchored_events fromStrHash decSample "" blkNoTs).events.length = 1
    ∧ (map_events decSample "" blkNoTs).events.map Event.timestamp = [0]
    ∧ (map_anchored_events fromStrHash decSample "" blkNoTs).events.map
        AnchoredEvent.timestamp = [0] := by
  decide

/-- Witness for C9 (amended) on `blkNoTs`. -/
theorem missing_timestamp_zero_witness :
    blockTimestamp blkNoTs = 0
    ∧ ({ tx_hash := "tx", block_num := 5, timestamp := 0, event_type := "PUT",
         data := some { event := some (.put
           { author := "alice", type_ := 1, hash := "abc123", parent := "",
             ts := 5, tags := [], expires_at := 0 }) } } : Event).timestamp = 0 := by
  have h := missing_timestamp_zero fromStrHash decSample "" blkNoTs rfl
  exact ⟨h.1, h.2.1 _ (by decide)⟩

/-! ## Event-hash identity (C2) -/

/-- C2 (amended): for every `AnchoredEvent` emitted by
`map_anchored_events`, `event_hash` equals the hex-encoded SHA-256
digest of the payload bytes carried in the event — the JSON document of
the processing path (the action's `json_data` when it arrived as JSON,
otherwise the canonical JSON reconstructed from the binary decode) — and
`event_hash` is a pure function of those carried payload bytes: any two
emitted events with identical carried payload bytes have identical
`event_hash`. It is NOT in general the digest of the action's raw binary
payload bytes (see the counterexample). -/
theorem event_hash_of_payload :
    ∀ (fromStr : String → Option Json) (d : Decoders) (p : String) (b : Block)
      (e : AnchoredEvent),
      e ∈ (map_anchored_events fromStr d p b).events →
      e.event_hash = sha256Hex e.payload
      ∧ (∀ (p' : String) (b' : Block) (e' : AnchoredEvent),
          e' ∈ (map_anchored_events fromStr d p' b').events →
          e'.payload = e.payload → e'.event_hash = e.event_hash) := by
  have main : ∀ (fromStr : String → Option Json) (d : Decoders) (p₀ : String)
      (b₀ : Block) (e₀ : AnchoredEvent),
      e₀ ∈ (map_anchored_events fromStr d p₀ b₀).events →
      e₀.event_hash = sha256Hex e₀.payload := by
    intro fromStr d p₀ b₀ e₀ he₀
    rcases List.mem_filterMap.mp he₀ with ⟨⟨tr, t⟩, hmem, hpr⟩
    rcases processAnchored_emitted fromStr d (contractOf p₀) b₀.id b₀.number
        (blockTimestamp b₀) tr t e₀ hpr with
      ⟨a, -, -, -, js, -, hev, hpay, -, -, -, -, -, -, -, -⟩
    rw [hev, hpay]
  intro fromStr d p b e he
  refine ⟨main fromStr d p b e he, fun p' b' e' he' hpe => ?_⟩
  rw [main fromStr d p' b' e' he', main fromStr d p b e he, hpe]

set_option maxRecDepth 40000 in
/-- Counterexample for C2 as stated: `blkSample`'s `put` action arrives
with only a raw binary payload (`raw_data = [1]`, empty `json_data`);
the emitted event's `event_hash` is the SHA-256 of the reconstructed
canonical JSON document, and is NOT the SHA-256 of the action's exact
raw payload bytes `[1]`. -/
theorem event_hash_raw_bytes_cex :
    ((map_anchored_events (fun _ => none) decSample "" blkSample).events.map
        AnchoredEvent.event_hash)
      = [sha256Hex (strBytes
          "\x7b\"author\":\"alice\",\"event_cid\":\"cid\",\"hash\":\"abc123\",\"parent\":\"\",\"tags\":[],\"ts\":5,\"type\":1\x7d")]
    ∧ ((map_anchored_events (fun _ => none) decSample "" blkSample).events.map
        AnchoredEvent.event_hash)
      ≠ [sha256Hex [1]] := by
  decide

set_option maxRecDepth 40000 in
/-- Witness for C2 (amended) at the concrete event emitted from
`blkSample` (its `event_hash` is the SHA-256 of the reconstructed JSON
document, precomputed here). -/
theorem event_hash_of_payload_witness :
    ({ content_hash := "abc123",
       event_hash := "aa9e93b8014ff59915ea92a6f9e732da286c5b52fd578496f749783e905f9594",
       payload := strBytes
         "\x7b\"author\":\"alice\",\"event_cid\":\"cid\",\"hash\":\"abc123\",\"parent\":\"\",\"tags\":[],\"ts\":5,\"type\":1\x7d",
       block_num := 42, block_id := "blk", trx_id := "tx1", action_ordinal := 0,
       timestamp := 1000, source := "substreams-eos",
       contract_account := "polaris", action_name := "put" } : AnchoredEvent).event_hash
      = sha256Hex
        ({ content_hash := "abc123",
           event_hash := "aa9e93b8014ff59915ea92a6f9e732da286c5b52fd578496f749783e905f9594",
           payload := strBytes
             "\x7b\"author\":\"alice\",\"event_cid\":\"cid\",\"hash\":\"abc123\",\"parent\":\"\",\"tags\":[],\"ts\":5,\"type\":1\x7d",
           block_num := 42, block_id := "blk", trx_id := "tx1", action_ordinal := 0,
           timestamp := 1000, source := "substreams-eos",
           contract_account := "polaris", action_name := "put" } : AnchoredEvent).payload := by
  exact (event_hash_of_payload (fun _ => none) decSample "" blkSample _ (by decide)).1

end Polaris
